import Mathlib

/-!
Shallow embedding of `scripts/visdrone2yolo.py` (VisDrone → YOLO annotation
converter).  Python floats are modelled by exact rationals (`ℚ`); Python
`int` values by `Int`; Python strings by `List Char` (so that every string
operation is structurally recursive and kernel-evaluable); a Python
expression that may raise an exception is modelled by `Option`
(`none` = an exception was raised).
-/

namespace Visdrone

/-- Characters stripped by Python `str.strip()`. -/
def pyIsSpace (c : Char) : Bool :=
  c = ' ' || c = '\t' || c = '\n' || c = '\r' || c = '\x0b' || c = '\x0c'

/-- Model of Python `str.strip()`: drop whitespace from both ends. -/
def pyStrip (cs : List Char) : List Char :=
  ((cs.dropWhile pyIsSpace).reverse.dropWhile pyIsSpace).reverse

/-- Model of Python `str.split(sep)` for a one-character separator `sep`
(as in `x.split(',')`): splitting the empty string yields `[""]`, and `n`
separators yield `n + 1` (possibly empty) fields. -/
def pySplit (sep : Char) : List Char → List (List Char)
  | [] => [[]]
  | c :: cs =>
    let r := pySplit sep cs
    if c = sep then [] :: r
    else
      match r with
      | [] => [[c]]
      | g :: gs => (c :: g) :: gs

/-- Model of Python `int(s)`: optional surrounding whitespace, optional
sign, then a non-empty run of decimal digits (the rare underscore-separator
form accepted by Python is not modelled; no input here uses it).
`none` models a raised `ValueError`. -/
def pyParseInt (s : List Char) : Option Int :=
  let digits : List Char → Option Nat := fun ds =>
    if ds ≠ [] ∧ ds.all Char.isDigit then
      some (ds.foldl (fun a c => 10 * a + (c.toNat - 48)) 0)
    else none
  match pyStrip s with
  | '-' :: rest => (digits rest).map (fun n => -(n : Int))
  | '+' :: rest => (digits rest).map (fun n => (n : Int))
  | cs => (digits cs).map (fun n => (n : Int))

/-- Embedding of `convert_box(size, box)`: `size = (W, H)`,
`box = (x1, y1, w, h)`; returns the YOLO box
`(center_x, center_y, width, height)` exactly as the Python source computes
it (normalisation factors `dw = 1/W`, `dh = 1/H` first, then products).
A pure function: deterministic, no side effects. -/
def convert_box (size : ℚ × ℚ) (box : ℚ × ℚ × ℚ × ℚ) : ℚ × ℚ × ℚ × ℚ :=
  let dw : ℚ := 1 / size.1
  let dh : ℚ := 1 / size.2
  let center_x := (box.1 + box.2.2.1 / 2) * dw
  let center_y := (box.2.1 + box.2.2.2 / 2) * dh
  let width := box.2.2.1 * dw
  let height := box.2.2.2 * dh
  (center_x, center_y, width, height)

/-- Left-pad a decimal numeral with zeros to width 6. -/
def pad6 (m : Nat) : String :=
  let s := toString m
  String.mk (List.replicate (6 - s.length) '0') ++ s

/-- Model of Python `f"{x:.6f}"` on the rational model of the float `x`:
round `x * 10^6` to the nearest integer and print with six digits after the
decimal point.  (Python rounds the underlying binary double half-to-even;
on the values arising in this development the two roundings agree.) -/
def fmt6 (x : ℚ) : String :=
  let n : Int := ⌊x * 1000000 + 1 / 2⌋
  if n < 0 then
    "-" ++ toString (n.natAbs / 1000000) ++ "." ++ pad6 (n.natAbs % 1000000)
  else
    toString (n.toNat / 1000000) ++ "." ++ pad6 (n.toNat % 1000000)

/-- Embedding of the serialisation
`f"{cls} {' '.join(f'{x:.6f}' for x in box)}\n"`. -/
def formatLine (cls : Int) (box : ℚ × ℚ × ℚ × ℚ) : String :=
  toString cls ++ " " ++ fmt6 box.1 ++ " " ++ fmt6 box.2.1 ++ " "
    ++ fmt6 box.2.2.1 ++ " " ++ fmt6 box.2.2.2 ++ "\n"

/-- The range gate `all(0 <= x <= 1 for x in box)` of the source, as a
predicate on a converted box. -/
abbrev inUnit (b : ℚ × ℚ × ℚ × ℚ) : Prop :=
  0 ≤ b.1 ∧ b.1 ≤ 1 ∧ 0 ≤ b.2.1 ∧ b.2.1 ≤ 1
    ∧ 0 ≤ b.2.2.1 ∧ b.2.2.1 ≤ 1 ∧ 0 ≤ b.2.2.2 ∧ b.2.2.2 ≤ 1

/-- Embedding of one iteration of the per-row loop body of
`visdrone2yolo` (source lines 83–108), given the image size and the already
comma-split row.  Result:
* `none` — the iteration raised an exception (`int()` failed);
* `some none` — the row was filtered out (`continue`), nothing emitted;
* `some (some l)` — the row survived every filter and the line `l` was
  appended to `lines`. -/
def processRow (size : ℚ × ℚ) (row : List (List Char)) :
    Option (Option String) :=
  if row.length < 8 then some none
  else if row.getD 5 [] = ['0'] then some none
  else if row.getD 4 [] = ['0'] then some none
  else
    match pyParseInt (row.getD 5 []) with
    | none => none
    | some c =>
      let cls := c - 1
      if cls < 0 ∨ cls > 9 then some none
      else
        match pyParseInt (row.getD 0 []), pyParseInt (row.getD 1 []),
              pyParseInt (row.getD 2 []), pyParseInt (row.getD 3 []) with
        | some x1, some y1, some w, some h =>
          let box := convert_box size ((x1 : ℚ), (y1 : ℚ), (w : ℚ), (h : ℚ))
          if 0 ≤ box.1 ∧ box.1 ≤ 1 ∧ 0 ≤ box.2.1 ∧ box.2.1 ≤ 1
              ∧ 0 ≤ box.2.2.1 ∧ box.2.2.1 ≤ 1
              ∧ 0 ≤ box.2.2.2 ∧ box.2.2.2 ≤ 1 then
            some (some (formatLine cls box))
          else some none
        | _, _, _, _ => none

/-- Embedding of the whole `for row in ...` loop: the rows are processed in
order; an exception on any row aborts the loop (the enclosing
`try`/`except` then skips the file, discarding every line collected so
far), otherwise the emitted lines are collected in order.  `none` models
the exceptional outcome. -/
def processRows (size : ℚ × ℚ) : List (List (List Char)) → Option (List String)
  | [] => some []
  | r :: rs =>
    match processRow size r with
    | none => none
    | some o => (processRows size rs).map (fun ls => o.toList ++ ls)

/-- Embedding of `[x.split(',') for x in file.read().strip().splitlines()]`
(newline-separated lines of the stripped file content, each split on
commas; `splitlines`'s rarer line terminators such as `\r` are not
modelled). -/
def splitRows (content : String) : List (List (List Char)) :=
  (pySplit '\n' (pyStrip content.toList)).map (pySplit ',')

/-- Per-file record pipeline: parse the annotation file content and run the
row loop. -/
def processFile (size : ℚ × ℚ) (content : String) : Option (List String) :=
  processRows size (splitRows content)

/-- Content of the output label file for one annotation file, given the
image size: the file is written (with `writelines`, mode `'w'`) only when
the loop finished without an exception and `lines` is non-empty; otherwise
no file is created. -/
def fileOutput (size : ℚ × ℚ) (content : String) : Option String :=
  match processFile size content with
  | none => none
  | some [] => none
  | some ls => some (String.join ls)

/-- One annotation file of a split, as the per-file loop of
`visdrone2yolo` sees it: its file name, the pixel size of the sibling
image (`none` when the image is missing or unreadable, in which case the
file is skipped with a warning), and the text content of the annotation
file. -/
structure AnnEntry where
  name : String
  imgSize : Option (ℚ × ℚ)
  content : String

/-- The label file written for one annotation entry (`none` = no file is
written: image unavailable, exception, or zero surviving lines). -/
def entryOutput (e : AnnEntry) : Option String :=
  match e.imgSize with
  | none => none
  | some sz => fileOutput sz e.content

/-- All `(file name, file content)` writes performed by one run of
`visdrone2yolo` over a split, in processing order. -/
def runWrites (input : List AnnEntry) : List (String × String) :=
  input.filterMap (fun e => (entryOutput e).map (fun c => (e.name, c)))

/-- Apply a sequence of file writes (each an `open(..., 'w')` overwrite)
to a labels directory, modelled as a map from file name to file content. -/
def applyWrites (ws : List (String × String)) (fs : String → Option String) :
    String → Option String :=
  ws.foldl (fun g w => fun k => if k = w.1 then some w.2 else g k) fs

/-- State of the labels directory after one run of the converter over the
given input, starting from directory state `fs`. -/
def runConverter (input : List AnnEntry) (fs : String → Option String) :
    String → Option String :=
  applyWrites (runWrites input) fs

end Visdrone

namespace Visdrone

theorem applyWrites_cons (w : String × String) (ws : List (String × String))
    (g : String → Option String) :
    applyWrites (w :: ws) g =
      applyWrites ws (fun k => if k = w.1 then some w.2 else g k) := rfl

theorem applyWrites_not_mem (ws : List (String × String))
    (g : String → Option String) (k : String)
    (hk : k ∉ ws.map Prod.fst) : applyWrites ws g k = g k := by
  induction ws generalizing g with
  | nil => rfl
  | cons w ws ih =>
    simp only [List.map_cons, List.mem_cons, not_or] at hk
    rw [applyWrites_cons, ih _ hk.2, if_neg hk.1]

theorem applyWrites_mem (ws : List (String × String)) (k : String)
    (hk : k ∈ ws.map Prod.fst) (g g' : String → Option String) :
    applyWrites ws g k = applyWrites ws g' k := by
  induction ws generalizing g g' with
  | nil => simp at hk
  | cons w ws ih =>
    by_cases h : k ∈ ws.map Prod.fst
    · rw [applyWrites_cons, applyWrites_cons, ih h]
    · have hk1 : k = w.1 := by
        simp only [List.map_cons, List.mem_cons] at hk
        tauto
      rw [applyWrites_cons, applyWrites_cons,
        applyWrites_not_mem ws _ k h, applyWrites_not_mem ws _ k h,
        if_pos hk1, if_pos hk1]

/-- C1: for every image size `(W, H)` with `W > 0` and `H > 0` and every
box `(x1, y1, w, h)` of non-negative integers, `convert_box` returns
exactly `((x1 + w/2)/W, (y1 + h/2)/H, w/W, h/H)`; it is a pure function,
hence deterministic and without side effects.  (Python's floats are
modelled by exact rationals, so the identity is exact.) -/
theorem convert_box_formula (W H : ℚ) (x1 y1 w h : ℕ)
    (hW : 0 < W) (hH : 0 < H) :
    convert_box (W, H) ((x1 : ℚ), (y1 : ℚ), (w : ℚ), (h : ℚ)) =
      (((x1 : ℚ) + (w : ℚ) / 2) / W, ((y1 : ℚ) + (h : ℚ) / 2) / H,
        (w : ℚ) / W, (h : ℚ) / H) := by
  simp [convert_box, div_eq_mul_inv]

theorem convert_box_formula_witness :
    (0 : ℚ) < 1000 ∧
      convert_box ((1000 : ℚ), (1000 : ℚ))
          (((100 : ℕ) : ℚ), ((100 : ℕ) : ℚ), ((50 : ℕ) : ℚ), ((50 : ℕ) : ℚ)) =
        ((((100 : ℕ) : ℚ) + ((50 : ℕ) : ℚ) / 2) / 1000,
          (((100 : ℕ) : ℚ) + ((50 : ℕ) : ℚ) / 2) / 1000,
          ((50 : ℕ) : ℚ) / 1000, ((50 : ℕ) : ℚ) / 1000) :=
  ⟨by norm_num,
    convert_box_formula 1000 1000 100 100 50 50 (by norm_num) (by norm_num)⟩


theorem processRow_short (size : ℚ × ℚ) (row : List (List Char))
    (h8 : row.length < 8) : processRow size row = some none := by
  unfold processRow
  rw [if_pos h8]

theorem processRow_cat0 (size : ℚ × ℚ) (row : List (List Char))
    (h8 : ¬ row.length < 8) (h5 : row.getD 5 [] = ['0']) :
    processRow size row = some none := by
  unfold processRow
  rw [if_neg h8, if_pos h5]

theorem processRow_score0 (size : ℚ × ℚ) (row : List (List Char))
    (h8 : ¬ row.length < 8) (h5 : row.getD 5 [] ≠ ['0'])
    (h4 : row.getD 4 [] = ['0']) : processRow size row = some none := by
  unfold processRow
  rw [if_neg h8, if_neg h5, if_pos h4]

theorem processRow_badcls (size : ℚ × ℚ) (row : List (List Char)) (c : Int)
    (h8 : ¬ row.length < 8) (h5 : row.getD 5 [] ≠ ['0'])
    (h4 : row.getD 4 [] ≠ ['0'])
    (hc : pyParseInt (row.getD 5 []) = some c)
    (hcls : c - 1 < 0 ∨ c - 1 > 9) : processRow size row = some none := by
  unfold processRow
  simp only [if_neg h8, if_neg h5, if_neg h4, hc, if_pos hcls]

theorem processRow_reduce (size : ℚ × ℚ) (row : List (List Char)) (c : Int)
    (h8 : ¬ row.length < 8) (h5 : row.getD 5 [] ≠ ['0'])
    (h4 : row.getD 4 [] ≠ ['0'])
    (hc : pyParseInt (row.getD 5 []) = some c)
    (hcls : ¬(c - 1 < 0 ∨ c - 1 > 9)) :
    processRow size row =
      match pyParseInt (row.getD 0 []), pyParseInt (row.getD 1 []),
            pyParseInt (row.getD 2 []), pyParseInt (row.getD 3 []) with
      | some x1, some y1, some w, some h =>
        if inUnit (convert_box size ((x1 : ℚ), (y1 : ℚ), (w : ℚ), (h : ℚ))) then
          some (some (formatLine (c - 1)
            (convert_box size ((x1 : ℚ), (y1 : ℚ), (w : ℚ), (h : ℚ)))))
        else some none
      | _, _, _, _ => none := by
  unfold processRow
  simp only [if_neg h8, if_neg h5, if_neg h4, hc, if_neg hcls]

theorem processRows_eq_none_of_mem (size : ℚ × ℚ)
    {rows : List (List (List Char))} {r : List (List Char)} (hr : r ∈ rows)
    (hnone : processRow size r = none) : processRows size rows = none := by
  induction rows with
  | nil => cases hr
  | cons a as ih =>
    rcases List.mem_cons.mp hr with h1 | h1
    · subst h1
      simp [processRows, hnone]
    · cases hpa : processRow size a <;> simp [processRows, hpa, ih h1]

/-- C3 (amended): a parse error on one line (a line with at least 8 fields
whose coordinate or category field is not an integer) does not skip only
that line: the exception is caught by the per-file handler, so the entire
annotation file is skipped and none of its records — including records of
well-formed lines — is written; the remaining annotation files of the
split are still processed unchanged. -/
theorem c3_parse_error_skips_file (size : ℚ × ℚ)
    (rows : List (List (List Char)))
    (h : ∃ r ∈ rows, processRow size r = none) :
    processRows size rows = none ∧
      ∀ (e : AnnEntry) (rest : List AnnEntry),
        e.imgSize = some size → splitRows e.content = rows →
          runWrites (e :: rest) = runWrites rest := by
  obtain ⟨r, hr, hnone⟩ := h
  have hrows : processRows size rows = none :=
    processRows_eq_none_of_mem size hr hnone
  refine ⟨hrows, ?_⟩
  intro e rest h1 h2
  have hout : entryOutput e = none := by
    simp only [entryOutput, h1, fileOutput, processFile, h2, hrows]
  simp [runWrites, List.filterMap_cons, hout]

/-- C5 (amended): a record whose category field has integer value 0 is
never emitted (the source drops it either by the string comparison
`row[5] == '0'` or, for other spellings of zero, by the class-range check
`cls < 0`); the score filter, however, compares the raw field with the
string `'0'`, so only records whose score field is literally `"0"` are
dropped by it — a score field spelling zero differently (e.g. `"00"`) is
not dropped. -/
theorem c5_zero_category_and_score (size : ℚ × ℚ) (row : List (List Char))
    (h : row.getD 4 [] = ['0'] ∨ pyParseInt (row.getD 5 []) = some 0) :
    processRow size row = some none := by
  by_cases h8 : row.length < 8
  · exact processRow_short size row h8
  by_cases h5 : row.getD 5 [] = ['0']
  · exact processRow_cat0 size row h8 h5
  by_cases h4 : row.getD 4 [] = ['0']
  · exact processRow_score0 size row h8 h5 h4
  have hp : pyParseInt (row.getD 5 []) = some 0 := h.resolve_left h4
  exact processRow_badcls size row 0 h8 h5 h4 hp (by norm_num)

/-- C6: whenever the category field parses to the integer `c`, an emitted
line for the record carries class id `c - 1` (serialised in front of the
box), and the record is dropped whenever `c - 1` lies outside `[0, 9]` —
in particular `category = 11` produces no output line. -/
theorem c6_class_remap (size : ℚ × ℚ) (row : List (List Char)) (c : Int)
    (hc : pyParseInt (row.getD 5 []) = some c) :
    ((c - 1 < 0 ∨ c - 1 > 9) → processRow size row = some none) ∧
      ∀ l, processRow size row = some (some l) →
        0 ≤ c - 1 ∧ c - 1 ≤ 9 ∧ ∃ b, l = formatLine (c - 1) b := by
  constructor
  · intro hout
    by_cases h8 : row.length < 8
    · exact processRow_short size row h8
    by_cases h5 : row.getD 5 [] = ['0']
    · exact processRow_cat0 size row h8 h5
    by_cases h4 : row.getD 4 [] = ['0']
    · exact processRow_score0 size row h8 h5 h4
    exact processRow_badcls size row c h8 h5 h4 hc hout
  · intro l hl
    by_cases h8 : row.length < 8
    · rw [processRow_short size row h8] at hl
      simp at hl
    by_cases h5 : row.getD 5 [] = ['0']
    · rw [processRow_cat0 size row h8 h5] at hl
      simp at hl
    by_cases h4 : row.getD 4 [] = ['0']
    · rw [processRow_score0 size row h8 h5 h4] at hl
      simp at hl
    by_cases hcls : c - 1 < 0 ∨ c - 1 > 9
    · rw [processRow_badcls size row c h8 h5 h4 hc hcls] at hl
      simp at hl
    refine ⟨by omega, by omega, ?_⟩
    rw [processRow_reduce size row c h8 h5 h4 hc hcls] at hl
    rcases e0 : pyParseInt (row.getD 0 []) with _ | x1
    · simp only [e0] at hl
      cases hl
    rcases e1 : pyParseInt (row.getD 1 []) with _ | y1
    · simp only [e0, e1] at hl
      cases hl
    rcases e2 : pyParseInt (row.getD 2 []) with _ | w
    · simp only [e0, e1, e2] at hl
      cases hl
    rcases e3 : pyParseInt (row.getD 3 []) with _ | h
    · simp only [e0, e1, e2, e3] at hl
      cases hl
    simp only [e0, e1, e2, e3] at hl
    split at hl
    · exact ⟨_, (Option.some_inj.mp (Option.some_inj.mp hl)).symm⟩
    · simp at hl

/-- C7: for a record that has passed the length, ignored-region, score and
class-range filters and whose four coordinate fields parse, a line is
emitted exactly when all four values of the converted box lie in the
closed interval `[0, 1]`; otherwise the record is silently dropped, and
the emitted line serialises the converted box itself — no clamping. -/
theorem c7_unit_interval_gate (size : ℚ × ℚ) (row : List (List Char))
    (c x1 y1 w h : Int)
    (h8 : ¬ row.length < 8) (h5 : row.getD 5 [] ≠ ['0'])
    (h4 : row.getD 4 [] ≠ ['0'])
    (hc : pyParseInt (row.getD 5 []) = some c)
    (hcls : ¬(c - 1 < 0 ∨ c - 1 > 9))
    (e0 : pyParseInt (row.getD 0 []) = some x1)
    (e1 : pyParseInt (row.getD 1 []) = some y1)
    (e2 : pyParseInt (row.getD 2 []) = some w)
    (e3 : pyParseInt (row.getD 3 []) = some h) :
    processRow size row =
      if inUnit (convert_box size ((x1 : ℚ), (y1 : ℚ), (w : ℚ), (h : ℚ))) then
        some (some (formatLine (c - 1)
          (convert_box size ((x1 : ℚ), (y1 : ℚ), (w : ℚ), (h : ℚ)))))
      else some none := by
  rw [processRow_reduce size row c h8 h5 h4 hc hcls]
  simp only [e0, e1, e2, e3]

/-- C8: an annotation file in which zero records survive filtering
produces no output file at all — `fileOutput` is `none` and a converter
run over a split containing such a file writes exactly what it would have
written without that file. -/
theorem c8_no_output_when_empty (size : ℚ × ℚ) (content : String)
    (h : processFile size content = some []) :
    fileOutput size content = none ∧
      ∀ (name : String) (rest : List AnnEntry) (fs : String → Option String),
        runConverter ((⟨name, some size, content⟩ : AnnEntry) :: rest) fs =
          runConverter rest fs := by
  have hf : fileOutput size content = none := by
    unfold fileOutput
    rw [h]
  refine ⟨hf, ?_⟩
  intro name rest fs
  have hout : entryOutput (⟨name, some size, content⟩ : AnnEntry) = none := by
    unfold entryOutput
    exact hf
  have hw : runWrites ((⟨name, some size, content⟩ : AnnEntry) :: rest) =
      runWrites rest := by
    simp only [runWrites, List.filterMap_cons, hout, Option.map_none']
  unfold runConverter
  rw [hw]

/-- C9: the converter's writes are a pure function of the unchanged input,
and each write overwrites its target with that same content, so a second
run over the same input reproduces the first run's directory state
byte-for-byte; file names not written by the run are never created,
overwritten or deleted. -/
theorem c9_idempotent_run (input : List AnnEntry)
    (fs : String → Option String) (k : String)
    (hk : k ∉ (runWrites input).map Prod.fst) :
    runConverter input (runConverter input fs) = runConverter input fs ∧
      runConverter input fs k = fs k := by
  constructor
  · funext k'
    by_cases h : k' ∈ (runWrites input).map Prod.fst
    · exact applyWrites_mem _ _ h _ _
    · exact applyWrites_not_mem _ _ _ h
  · exact applyWrites_not_mem _ _ _ hk

/-- C10: when the per-file loop succeeds, the collected output lines are
exactly the per-row emissions of the source rows, kept in source order
(`filterMap` preserves the relative order of the surviving records). -/
theorem c10_order_preserved (size : ℚ × ℚ)
    (rows : List (List (List Char))) (ls : List String)
    (h : processRows size rows = some ls) :
    ls = rows.filterMap (fun r => (processRow size r).join) := by
  induction rows generalizing ls with
  | nil =>
    simp only [processRows, Option.some_inj] at h
    simp [← h]
  | cons r rs ih =>
    rw [processRows] at h
    cases hr : processRow size r with
    | none =>
      rw [hr] at h
      cases h
    | some o =>
      rw [hr] at h
      cases hrs : processRows size rs with
      | none =>
        rw [hrs] at h
        cases h
      | some tail =>
        rw [hrs] at h
        simp only [Option.map_some', Option.some_inj] at h
        subst h
        rw [List.filterMap_cons, hr]
        cases o <;> simp [Option.join, ih tail hrs]

section ConcreteEvaluation

attribute [local semireducible] Rat.mul Rat.add Rat.sub Rat.inv

/-- C2: for an image of size `(1000, 1000)` and the source record line
`"100,100,50,50,1,3,0,0"`, the converter emits exactly the output line
`"2 0.125000 0.125000 0.050000 0.050000"` (class id `3 - 1 = 2`, four
values formatted with six decimal digits, single-space separated; the
written line carries the trailing newline added by the source's f-string). -/
theorem c2_concrete_scenario :
    processFile (1000, 1000) "100,100,50,50,1,3,0,0" =
        some ["2 0.125000 0.125000 0.050000 0.050000\n"] ∧
      fileOutput (1000, 1000) "100,100,50,50,1,3,0,0" =
        some ("2 0.125000 0.125000 0.050000 0.050000" ++ "\n") :=
  ⟨by decide, by decide⟩

/-- C3 counterexample: in the two-line file whose first line is the valid
record `"100,100,50,50,1,3,0,0"` (which on its own is emitted) and whose
second line `"1,2,3,4,1,x,0,0"` has a non-integer category field, the whole
file produces no output — the surviving record of the first line is NOT
written, so a parse error does not skip only the offending line. -/
theorem c3_counterexample :
    processRow (1000, 1000) (pySplit ',' "100,100,50,50,1,3,0,0".toList) =
        some (some "2 0.125000 0.125000 0.050000 0.050000\n") ∧
      fileOutput (1000, 1000)
        ("100,100,50,50,1,3,0,0" ++ "\n" ++ "1,2,3,4,1,x,0,0") = none :=
  ⟨by decide, by decide⟩

theorem c3_parse_error_skips_file_witness :
    (∃ r ∈ splitRows ("100,100,50,50,1,3,0,0" ++ "\n" ++ "1,2,3,4,1,x,0,0"),
        processRow (1000, 1000) r = none) ∧
      (processRows (1000, 1000)
          (splitRows ("100,100,50,50,1,3,0,0" ++ "\n" ++ "1,2,3,4,1,x,0,0")) =
            none ∧
        ∀ (e : AnnEntry) (rest : List AnnEntry),
          e.imgSize = some (1000, 1000) →
          splitRows e.content =
              splitRows ("100,100,50,50,1,3,0,0" ++ "\n" ++ "1,2,3,4,1,x,0,0") →
            runWrites (e :: rest) = runWrites rest) :=
  ⟨by decide, c3_parse_error_skips_file _ _ (by decide)⟩

/-- C5 counterexample: the record `"0,0,10,10,00,3,0,0"` has a score field
`"00"` whose integer value is 0, yet the converter emits a line for it —
the score filter compares the raw string with `'0'`, not its integer
value. -/
theorem c5_counterexample :
    pyParseInt "00".toList = some 0 ∧
      fileOutput (1000, 1000) "0,0,10,10,00,3,0,0" =
        some "2 0.005000 0.005000 0.010000 0.010000\n" :=
  ⟨by decide, by decide⟩

theorem c5_zero_category_and_score_witness :
    ((pySplit ',' "0,0,10,10,0,3,0,0".toList).getD 4 [] = ['0'] ∨
        pyParseInt ((pySplit ',' "0,0,10,10,0,3,0,0".toList).getD 5 []) =
          some 0) ∧
      processRow (1000, 1000) (pySplit ',' "0,0,10,10,0,3,0,0".toList) =
        some none :=
  ⟨Or.inl (by decide),
    c5_zero_category_and_score _ _ (Or.inl (by decide))⟩

theorem c6_class_remap_witness :
    pyParseInt ((pySplit ',' "1,1,1,1,1,11,0,0".toList).getD 5 []) =
        some 11 ∧
      ((((11 : Int) - 1 < 0 ∨ (11 : Int) - 1 > 9) →
          processRow (1000, 1000) (pySplit ',' "1,1,1,1,1,11,0,0".toList) =
            some none) ∧
        ∀ l, processRow (1000, 1000) (pySplit ',' "1,1,1,1,1,11,0,0".toList) =
            some (some l) →
          0 ≤ (11 : Int) - 1 ∧ (11 : Int) - 1 ≤ 9 ∧
            ∃ b, l = formatLine ((11 : Int) - 1) b) :=
  ⟨by decide, c6_class_remap _ _ 11 (by decide)⟩

theorem c7_unit_interval_gate_witness :
    (¬ (pySplit ',' "100,100,50,50,1,3,0,0".toList).length < 8) ∧
      processRow (1000, 1000) (pySplit ',' "100,100,50,50,1,3,0,0".toList) =
        (if inUnit (convert_box (1000, 1000)
            (((100 : Int) : ℚ), ((100 : Int) : ℚ),
              ((50 : Int) : ℚ), ((50 : Int) : ℚ))) then
          some (some (formatLine ((3 : Int) - 1)
            (convert_box (1000, 1000)
              (((100 : Int) : ℚ), ((100 : Int) : ℚ),
                ((50 : Int) : ℚ), ((50 : Int) : ℚ)))))
        else some none) :=
  ⟨by decide,
    c7_unit_interval_gate (1000, 1000) _ 3 100 100 50 50 (by decide)
      (by decide) (by decide) (by decide) (by decide) (by decide) (by decide)
      (by decide) (by decide)⟩

theorem c8_no_output_when_empty_witness :
    processFile (1000, 1000) "0,0,5,5,0,1,0,0" = some [] ∧
      (fileOutput (1000, 1000) "0,0,5,5,0,1,0,0" = none ∧
        ∀ (name : String) (rest : List AnnEntry)
            (fs : String → Option String),
          runConverter
              ((⟨name, some (1000, 1000), "0,0,5,5,0,1,0,0"⟩ : AnnEntry)
                :: rest) fs =
            runConverter rest fs) :=
  ⟨by decide, c8_no_output_when_empty _ _ (by decide)⟩

theorem c9_idempotent_run_witness :
    "b.txt" ∉
        (runWrites [⟨"a.txt", some (1000, 1000),
          "100,100,50,50,1,3,0,0"⟩]).map Prod.fst ∧
      (runConverter [⟨"a.txt", some (1000, 1000), "100,100,50,50,1,3,0,0"⟩]
          (runConverter
            [⟨"a.txt", some (1000, 1000), "100,100,50,50,1,3,0,0"⟩]
            (fun _ => none)) =
        runConverter [⟨"a.txt", some (1000, 1000), "100,100,50,50,1,3,0,0"⟩]
          (fun _ => none) ∧
       runConverter [⟨"a.txt", some (1000, 1000), "100,100,50,50,1,3,0,0"⟩]
          (fun _ => none) "b.txt" = none) :=
  ⟨by decide, c9_idempotent_run _ _ _ (by decide)⟩

theorem c10_order_preserved_witness :
    processRows (1000, 1000)
        (splitRows ("100,100,50,50,1,3,0,0" ++ "\n" ++ "0,0,5,5,1,0,0,0"
          ++ "\n" ++ "200,200,100,100,1,5,0,0")) =
      some ["2 0.125000 0.125000 0.050000 0.050000\n",
        "4 0.250000 0.250000 0.100000 0.100000\n"] ∧
      ["2 0.125000 0.125000 0.050000 0.050000\n",
        "4 0.250000 0.250000 0.100000 0.100000\n"] =
        (splitRows ("100,100,50,50,1,3,0,0" ++ "\n" ++ "0,0,5,5,1,0,0,0"
          ++ "\n" ++ "200,200,100,100,1,5,0,0")).filterMap
          (fun r => (processRow (1000, 1000) r).join) :=
  ⟨by decide, c10_order_preserved _ _ _ (by decide)⟩

end ConcreteEvaluation

end Visdrone
